import Mathlib

/-!
Shallow embedding of `hwilib/trezori.py` (the Trezor interaction script):
the PSBT data model, the signing-request builder, the previous-transaction
resolver `TxAPIPSBT.get_tx`, and the signature-merge loop of
`TrezorClient.sign_tx`, together with theorems settling the specified
properties.

Bytes are modelled as `List Nat` (each element a byte value), Python byte
strings as such lists, dictionaries preserving insertion order as
association lists, protobuf fields that may be left unassigned as `Option`.
-/

set_option autoImplicit false

abbrev Bytes := List Nat

/-- Python sequence of signature bytes. -/
abbrev Sig := Bytes

/-- Model of `COutPoint` of the serializations module: a (txid-as-uint256, index) pair. -/
structure OutPoint where
  hash : Nat
  n : Nat
deriving DecidableEq, Repr

/-- Model of `CTxIn`: one input of a raw bitcoin transaction. -/
structure CTxIn where
  prevout : OutPoint
  scriptSig : Bytes
  nSequence : Nat
deriving DecidableEq, Repr

/-- Model of `CTxOut`: one output of a raw bitcoin transaction. -/
structure CTxOut where
  nValue : Nat
  scriptPubKey : Bytes
deriving DecidableEq, Repr

/-- A full previous transaction as embedded in a PSBT input
(`non_witness_utxo`).  Modelled from the spec: the `sha256` field holds the
transaction's own hash, computed via double hashing framed as a 256-bit
value (the computation itself lives in the serializations module, outside
this file's source); here it is carried as a field, exactly as `get_tx`
reads it. -/
structure CTransaction where
  nVersion : Nat
  nLockTime : Nat
  vin : List CTxIn
  vout : List CTxOut
  sha256 : Nat
deriving DecidableEq, Repr

/-- The unsigned transaction held by a PSBT (`tx.tx` in the source). -/
structure CMutableTransaction where
  nVersion : Nat
  nLockTime : Nat
  vin : List CTxIn
  vout : List CTxOut
deriving DecidableEq, Repr

/-- One PSBT input record.  `hd_keypaths` maps a public key to the stored
sequence whose element 0 is the key's master fingerprint and whose tail is
the derivation path (the source reads them as `[0]` and `[1:]`); it is an
insertion-ordered association list, like a Python dict. -/
structure PSBTInput where
  non_witness_utxo : Option CTransaction
  witness_utxo : Option CTxOut
  hd_keypaths : List (Bytes × List Nat)
  partial_sigs : List (Bytes × Bytes)
deriving DecidableEq, Repr

/-- The PSBT handed to `sign_tx`: the unsigned transaction plus one
`PSBTInput` per transaction input. -/
structure PSBT where
  tx : CMutableTransaction
  inputs : List PSBTInput
deriving DecidableEq, Repr

/-- The `proto.InputScriptType` values used by the source. -/
inductive InputScriptType where
  | SPENDADDRESS
  | SPENDP2SHWITNESS
  | SPENDWITNESS
deriving DecidableEq, Repr

/-- The `proto.OutputScriptType` values: the source only ever assigns
`PAYTOADDRESS`; `PAYTOSCRIPTHASH` is another value of the protobuf enum,
included so the tagging property is not vacuous. -/
inductive OutputScriptType where
  | PAYTOADDRESS
  | PAYTOSCRIPTHASH
deriving DecidableEq, Repr

/-- Modelled from the spec: an address string is either the base58check
encoding of a version byte and a 20-byte payload (`to_address` of the
base58 module, outside this file's source) or the bech32 encoding of a
witness version and program with a human-readable prefix
(`bech32.encode`).  The constructors record exactly the encoder inputs. -/
inductive Address where
  | base58check (payload : Bytes) (version : Nat)
  | bech32 (hrp : String) (witver : Nat) (witprog : Bytes)
deriving DecidableEq, Repr

/-- Model of `proto.TxInputType`: the per-input descriptor sent to the device.
Fields the source may leave unassigned are `Option`, `none` meaning the
protobuf field was never set. -/
structure TxInputType where
  prev_hash : Bytes
  prev_index : Nat
  sequence : Nat
  script_type : Option InputScriptType
  address_n : Option (List Nat)
  amount : Option Nat
deriving DecidableEq, Repr

/-- Model of `proto.TxOutputType`: the per-output descriptor sent to the device. -/
structure TxOutputType where
  amount : Nat
  script_type : OutputScriptType
  address : Address
deriving DecidableEq, Repr

/-- Every exception `sign_tx` can raise, by source site:
`multisig` = `TypeError("Cannot sign multisig yet")`,
`missingKey` = `TypeError("All inputs must have a key for this device")`,
`notAddress` = `TypeError("Output is not an address")`,
`indexOutOfRange` = Python `IndexError` from `non_witness_utxo.vout[n]`,
`nameError` / `valueError` = Python `NameError` (loop variable `sig` unbound)
and `ValueError` (`list.remove(x): x not in list`) in the merge loop. -/
inductive SignErr where
  | multisig
  | missingKey
  | notAddress
  | indexOutOfRange
  | nameError
  | valueError
deriving DecidableEq, Repr

/-- Error of `TxAPIPSBT.get_tx`: `ValueError("TX {} not found in PSBT")`. -/
inductive GetTxErr where
  | prevTxNotFound (txhash : Bytes)
deriving DecidableEq, Repr

/-- Returns `true` iff an `Except` value is a success. -/
def exceptIsOk {ε α : Type} : Except ε α → Bool
  | .ok _ => true
  | .error _ => false

/-- Modelled from the spec: `ser_uint256` of the serializations module,
the 32-byte little-endian serialization of a 256-bit value. -/
def ser_uint256 (n : Nat) : Bytes :=
  (List.range 32).map (fun i => n / 256 ^ i % 256)

/-- Modelled from the spec: `uint256_from_str`, the little-endian
interpretation of a byte string as a 256-bit value. -/
def uint256_from_str (b : Bytes) : Nat :=
  (b.zip (List.range b.length)).foldl (fun acc p => acc + p.1 * 256 ^ p.2) 0

/-- Modelled from the spec: the P2PKH script pattern
(`CTxOut.is_p2pkh` of the serializations module):
`OP_DUP OP_HASH160 <20-byte push> OP_EQUALVERIFY OP_CHECKSIG`. -/
def is_p2pkh_script (s : Bytes) : Bool :=
  s.length == 25 && s.get? 0 == some 0x76 && s.get? 1 == some 0xa9 &&
    s.get? 2 == some 0x14 && s.get? 23 == some 0x88 && s.get? 24 == some 0xac

/-- Modelled from the spec: the P2SH script pattern
(`CTxOut.is_p2sh`): `OP_HASH160 <20-byte push> OP_EQUAL`. -/
def is_p2sh_script (s : Bytes) : Bool :=
  s.length == 23 && s.get? 0 == some 0xa9 && s.get? 1 == some 0x14 &&
    s.get? 22 == some 0x87

/-- Modelled from the spec: the witness script pattern (`CTxOut.is_witness`),
returning (matched, witness version, witness program). -/
def is_witness_script (s : Bytes) : Bool × Nat × Bytes :=
  if 4 ≤ s.length && s.length ≤ 42 &&
      (s.headD 1 == 0 || (0x51 ≤ s.headD 0 && s.headD 0 ≤ 0x60)) &&
      s.get? 1 == some (s.length - 2) then
    (true, if s.headD 0 == 0 then 0 else s.headD 0 - 0x50, s.drop 2)
  else
    (false, 0, [])

def CTxOut.is_p2pkh (o : CTxOut) : Bool := is_p2pkh_script o.scriptPubKey

def CTxOut.is_p2sh (o : CTxOut) : Bool := is_p2sh_script o.scriptPubKey

def CTxOut.is_witness (o : CTxOut) : Bool × Nat × Bytes :=
  is_witness_script o.scriptPubKey

/-- Lines 93-101 of the source: the script-type branch of the input loop.
`none` means the branch assigns nothing and `txinputtype.script_type`
stays unset. -/
def scriptTypeOf (psbt_in : PSBTInput) : Option InputScriptType :=
  match psbt_in.non_witness_utxo with
  | some _ => some .SPENDADDRESS
  | none =>
    match psbt_in.witness_utxo with
    | some wu => if wu.is_p2sh then some .SPENDP2SHWITNESS else some .SPENDWITNESS
    | none => none

/-- Lines 119-123 of the source: the amount branch of the input loop.
Python's `non_witness_utxo.vout[txin.prevout.n]` raises `IndexError` when
the index is out of range; `none` means no assignment happens and
`txinputtype.amount` stays unset. -/
def amountOf (psbt_in : PSBTInput) (txin : CTxIn) : Except SignErr (Option Nat) :=
  match psbt_in.non_witness_utxo with
  | some nwu =>
    match nwu.vout.get? txin.prevout.n with
    | some vo => .ok (some vo.nValue)
    | none => .error .indexOutOfRange
  | none =>
    match psbt_in.witness_utxo with
    | some wu => .ok (some wu.nValue)
    | none => .ok none

/-- Lines 85-126 of the source: build one `TxInputType` from a PSBT input
paired with its raw transaction input.  The key check (lines 103-117) runs
before the amount lookup, so its errors take precedence over the
`IndexError`. -/
def buildInput (master_fp : Nat) (psbt_in : PSBTInput) (txin : CTxIn) :
    Except SignErr TxInputType :=
  match psbt_in.hd_keypaths with
  | [] => .error .missingKey
  | _ :: _ :: _ => .error .multisig
  | [(_, v)] =>
    match amountOf psbt_in txin with
    | .error e => .error e
    | .ok amount =>
      .ok { prev_hash := (ser_uint256 txin.prevout.hash).reverse
            prev_index := txin.prevout.n
            sequence := txin.nSequence
            script_type := scriptTypeOf psbt_in
            address_n := if v.headD 0 = master_fp then some v.tail else none
            amount := amount }

/-- The input loop of `sign_tx` over `zip(tx.inputs, tx.tx.vin)`. -/
def buildInputs (master_fp : Nat) : List (PSBTInput × CTxIn) →
    Except SignErr (List TxInputType)
  | [] => .ok []
  | (psbt_in, txin) :: rest =>
    match buildInput master_fp psbt_in txin with
    | .error e => .error e
    | .ok d =>
      match buildInputs master_fp rest with
      | .error e => .error e
      | .ok ds => .ok (d :: ds)

/-- Lines 129-136 of the source: network constants. -/
def p2pkh_version (is_testnet : Bool) : Nat :=
  if is_testnet then 0x6f else 0x00

/-- Lines 129-136 of the source: network constants. -/
def p2sh_version (is_testnet : Bool) : Nat :=
  if is_testnet then 0xc4 else 0x05

/-- Lines 129-136 of the source: network constants. -/
def bech32_hrp (is_testnet : Bool) : String :=
  if is_testnet then "tb" else "bc"

/-- Lines 140-156 of the source: build one `TxOutputType` from a raw
transaction output. -/
def buildOutput (pkh_ver sh_ver : Nat) (hrp : String) (out : CTxOut) :
    Except SignErr TxOutputType :=
  if out.is_p2pkh then
    .ok { amount := out.nValue
          script_type := .PAYTOADDRESS
          address := .base58check ((out.scriptPubKey.drop 3).take 20) pkh_ver }
  else if out.is_p2sh then
    .ok { amount := out.nValue
          script_type := .PAYTOADDRESS
          address := .base58check ((out.scriptPubKey.drop 2).take 20) sh_ver }
  else
    match out.is_witness with
    | (true, ver, prog) =>
      .ok { amount := out.nValue
            script_type := .PAYTOADDRESS
            address := .bech32 hrp ver prog }
    | (false, _, _) => .error .notAddress

/-- The output loop of `sign_tx` over `tx.tx.vout`. -/
def buildOutputs (pkh_ver sh_ver : Nat) (hrp : String) : List CTxOut →
    Except SignErr (List TxOutputType)
  | [] => .ok []
  | out :: rest =>
    match buildOutput pkh_ver sh_ver hrp out with
    | .error e => .error e
    | .ok d =>
      match buildOutputs pkh_ver sh_ver hrp rest with
      | .error e => .error e
      | .ok ds => .ok (d :: ds)

/-- One expanded input of the `proto.TransactionType` built by `get_tx`. -/
structure TxInputDesc where
  prev_hash : Bytes
  prev_index : Nat
  script_sig : Bytes
  sequence : Nat
deriving DecidableEq, Repr

/-- One expanded binary output of the `proto.TransactionType` built by
`get_tx`. -/
structure TxBinOutputDesc where
  amount : Nat
  script_pubkey : Bytes
deriving DecidableEq, Repr

/-- Model of `proto.TransactionType` as populated by `get_tx`. -/
structure TransactionType where
  version : Nat
  lock_time : Nat
  inputs : List TxInputDesc
  bin_outputs : List TxBinOutputDesc
deriving DecidableEq, Repr

/-- Lines 31-47 of the source: expand a matched previous transaction into
the device's `TransactionType` shape. -/
def toTransactionType (tx : CTransaction) : TransactionType :=
  { version := tx.nVersion
    lock_time := tx.nLockTime
    inputs := tx.vin.map (fun vin =>
      { prev_hash := (ser_uint256 vin.prevout.hash).reverse
        prev_index := vin.prevout.n
        script_sig := vin.scriptSig
        sequence := vin.nSequence })
    bin_outputs := tx.vout.map (fun vout =>
      { amount := vout.nValue
        script_pubkey := vout.scriptPubKey }) }

/-- Line 26 of the source: one iteration of the scan — a non-witness UTXO
whose stored hash equals the target overwrites the accumulator. -/
def getTxStep (target : Nat) (tx : Option CTransaction) (psbt_in : PSBTInput) :
    Option CTransaction :=
  match psbt_in.non_witness_utxo with
  | some nwu => if nwu.sha256 = target then some nwu else tx
  | none => tx

/-- Lines 24-27 of the source: the scan over `psbt.inputs`.  `tx` starts as
`None` and every later match overwrites it. -/
def getTxLoop (target : Nat) (inputs : List PSBTInput) : Option CTransaction :=
  inputs.foldl (getTxStep target) none

/-- Model of `TxAPIPSBT.get_tx` (lines 23-47 of the source).  `txhashBytes` is the
byte string `binascii.unhexlify(txhash)` (display/big-endian order); the
comparison target is its endian reversal read as a 256-bit value. -/
def getTx (psbt : PSBT) (txhashBytes : Bytes) : Except GetTxErr TransactionType :=
  match getTxLoop (uint256_from_str txhashBytes.reverse) psbt.inputs with
  | none => .error (.prevTxNotFound txhashBytes)
  | some tx => .ok (toTransactionType tx)

/-- Python dict assignment `partial_sigs[pubkey] = val`: overwrite the
existing entry for the key, else append a new one. -/
def dictSet (m : List (Bytes × Bytes)) (k : Bytes) (val : Bytes) :
    List (Bytes × Bytes) :=
  if m.any (fun p => p.1 = k) then
    m.map (fun p => if p.1 = k then (k, val) else p)
  else m ++ [(k, val)]

/-- One iteration of the outer merge loop (lines 166-173 of the source).
The inner `for ... in zip(hd_keypaths.keys(), signatures)` runs its body at
most once (it ends in `break`), binding `pubkey` to the first key and `sig`
to the first signature; a signature with a matching fingerprint is stored
with a trailing `0x01` byte.  `signatures.remove(sig)` then removes the
first occurrence of `sig`'s value: the head just examined when the inner
loop ran, otherwise the stale value of `sig` from an earlier iteration
(`ValueError` when absent, `NameError` when `sig` was never bound). -/
def mergeStep (master_fp : Nat) (psbt_in : PSBTInput) (signatures : List Sig)
    (lastSig : Option Sig) : Except SignErr (PSBTInput × List Sig × Option Sig) :=
  match psbt_in.hd_keypaths, signatures with
  | (pubkey, v) :: _, sig :: rest =>
    let psbt_in' :=
      if v.headD 0 = master_fp then
        { psbt_in with partial_sigs := dictSet psbt_in.partial_sigs pubkey (sig ++ [0x01]) }
      else psbt_in
    .ok (psbt_in', rest, some sig)
  | _, _ =>
    match lastSig with
    | none => .error .nameError
    | some s =>
      if s ∈ signatures then .ok (psbt_in, signatures.erase s, some s)
      else .error .valueError

/-- The merge loop over `tx.inputs` (lines 165-173 of the source), in
state-passing style: the returned list is the final state of the PSBT
inputs (on an error at some input, earlier inputs keep the partial
signatures already written — the Python loop mutates in place — and the
failing input and its successors are untouched). -/
def mergeSigsAux (master_fp : Nat) (inputs : List PSBTInput)
    (signatures : List Sig) (lastSig : Option Sig) :
    List PSBTInput × Except SignErr Unit :=
  match inputs with
  | [] => ([], .ok ())
  | psbt_in :: rest =>
    match mergeStep master_fp psbt_in signatures lastSig with
    | .error e => (psbt_in :: rest, .error e)
    | .ok (psbt_in', sigs', last') =>
      (psbt_in' :: (mergeSigsAux master_fp rest sigs' last').1,
        (mergeSigsAux master_fp rest sigs' last').2)

/-- The whole merge step of `sign_tx`: loop variable `sig` starts unbound. -/
def mergeSigs (master_fp : Nat) (inputs : List PSBTInput)
    (signatures : List Sig) : List PSBTInput × Except SignErr Unit :=
  mergeSigsAux master_fp inputs signatures none

/-- Model of `TrezorClient.sign_tx` (lines 77-175 of the source) in state-passing
style.  `device` abstracts `self.client.sign_tx(coin, inputs, outputs,
version, locktime)` and returns `signed_tx[0]`, the signature list;
`master_fp` abstracts the fingerprint derived from the device's master key
(lines 80-81).  The returned `PSBT` is the final state of `tx` (Python
mutates it in place); the `Except` component is the call's outcome. -/
def signTx (device : String → List TxInputType → List TxOutputType → Nat → Nat → List Sig)
    (is_testnet : Bool) (master_fp : Nat) (tx : PSBT) :
    PSBT × Except SignErr Unit :=
  match buildInputs master_fp (tx.inputs.zip tx.tx.vin) with
  | .error e => (tx, .error e)
  | .ok inputs =>
    match buildOutputs (p2pkh_version is_testnet) (p2sh_version is_testnet)
        (bech32_hrp is_testnet) tx.tx.vout with
    | .error e => (tx, .error e)
    | .ok outputs =>
      let coin := if is_testnet then "Testnet" else "Bitcoin"
      let signatures := device coin inputs outputs tx.tx.nVersion tx.tx.nLockTime
      let (inputs', r) := mergeSigs master_fp tx.inputs signatures
      ({ tx with inputs := inputs' }, r)

/-! ### Concrete fixtures used by witnesses and counterexamples -/

/-- A sample compressed-public-key byte string. -/
def pkA : Bytes := [2, 170]

/-- A second sample public key. -/
def pkB : Bytes := [3, 171]

/-- A raw transaction input spending output 0 of the all-zero txid. -/
def txin0 : CTxIn := { prevout := { hash := 0, n := 0 }, scriptSig := [], nSequence := 0 }

/-- An unsigned transaction with one input and no outputs. -/
def mtx0 : CMutableTransaction := { nVersion := 2, nLockTime := 0, vin := [txin0], vout := [] }

/-- A PSBT input with no UTXO information at all and a single foreign key
(stored fingerprint 9). -/
def inNoUtxo : PSBTInput :=
  { non_witness_utxo := none, witness_utxo := none
    hd_keypaths := [(pkA, [9, 44, 0])], partial_sigs := [] }

/-- A native-segwit previous output (P2WPKH script). -/
def wOut : CTxOut := { nValue := 5000, scriptPubKey := 0 :: 20 :: List.replicate 20 3 }

/-- A segwit PSBT input owned by the device with fingerprint 7. -/
def inOwn : PSBTInput :=
  { non_witness_utxo := none, witness_utxo := some wOut
    hd_keypaths := [(pkA, [7, 44, 0])], partial_sigs := [] }

/-- A segwit PSBT input owned by a different device (fingerprint 9). -/
def inOther : PSBTInput :=
  { non_witness_utxo := none, witness_utxo := some wOut
    hd_keypaths := [(pkA, [9, 44, 0])], partial_sigs := [] }

/-- A PSBT input with two HD-keypath entries. -/
def inMulti : PSBTInput :=
  { non_witness_utxo := none, witness_utxo := some wOut
    hd_keypaths := [(pkA, [7, 44, 0]), (pkB, [9, 44, 1])], partial_sigs := [] }

/-- A PSBT input with no HD-keypath entry. -/
def inEmpty : PSBTInput :=
  { non_witness_utxo := none, witness_utxo := some wOut
    hd_keypaths := [], partial_sigs := [] }

/-- The previous output referenced by the legacy fixture. -/
def vout0 : CTxOut := { nValue := 12345, scriptPubKey := [] }

/-- A previous transaction whose stored hash is 42. -/
def nwu0 : CTransaction :=
  { nVersion := 1, nLockTime := 0, vin := [txin0], vout := [vout0], sha256 := 42 }

/-- A legacy PSBT input embedding `nwu0`, owned by fingerprint 7. -/
def inLegacy : PSBTInput :=
  { non_witness_utxo := some nwu0, witness_utxo := none
    hd_keypaths := [(pkA, [7, 44, 0])], partial_sigs := [] }

/-- The descriptor `buildInput` produces for `inLegacy` with master
fingerprint 7. -/
def dLegacy : TxInputType :=
  { prev_hash := (ser_uint256 0).reverse, prev_index := 0, sequence := 0
    script_type := some .SPENDADDRESS, address_n := some [44, 0]
    amount := some 12345 }

/-- The descriptor `buildInput` produces for `inNoUtxo` with master
fingerprint 7. -/
def dNoUtxo : TxInputType :=
  { prev_hash := (ser_uint256 0).reverse, prev_index := 0, sequence := 0
    script_type := none, address_n := none, amount := none }

/-! ### C3: multisig and missing-key inputs abort the call -/

/-- Any `buildInput` success has exactly one HD-keypath entry. -/
theorem buildInput_ok_single (master_fp : Nat) (psbt_in : PSBTInput) (txin : CTxIn)
    (d : TxInputType) (h : buildInput master_fp psbt_in txin = .ok d) :
    psbt_in.hd_keypaths.length = 1 := by
  unfold buildInput at h
  cases hk : psbt_in.hd_keypaths with
  | nil => rw [hk] at h; exact absurd h (by simp)
  | cons x xs =>
    cases xs with
    | nil => simp [hk]
    | cons y ys => rw [hk] at h; exact absurd h (by simp)

/-- If some zipped (input, txin) pair has a key count other than one, the
input loop fails. -/
theorem buildInputs_error_of_bad (master_fp : Nat) :
    ∀ l : List (PSBTInput × CTxIn),
      (∃ p ∈ l, p.1.hd_keypaths.length ≠ 1) →
      exceptIsOk (buildInputs master_fp l) = false := by
  intro l
  induction l with
  | nil => rintro ⟨p, hp, _⟩; cases hp
  | cons hd tl ih =>
    rintro ⟨p, hp, hlen⟩
    obtain ⟨i, t⟩ := hd
    cases hb : buildInput master_fp i t with
    | error e => simp [buildInputs, hb, exceptIsOk]
    | ok d =>
      rcases List.mem_cons.mp hp with heq | htl
      · subst heq
        exact absurd (buildInput_ok_single master_fp i t d hb) hlen
      · have := ih ⟨p, htl, hlen⟩
        cases hrest : buildInputs master_fp tl with
        | error e => simp [buildInputs, hb, hrest, exceptIsOk]
        | ok ds => rw [hrest] at this; simp [exceptIsOk] at this

/-- C3: an input with more than one HD-keypath entry makes `buildInput`
fail with the multisig error, an input with none makes it fail with the
missing-key error, and a PSBT containing such an input (within the zipped
range) makes the whole `sign_tx` call abort with an error. -/
theorem trezor_C3_key_errors (master_fp : Nat) (psbt_in : PSBTInput) (txin : CTxIn) :
    (1 < psbt_in.hd_keypaths.length →
      buildInput master_fp psbt_in txin = .error .multisig) ∧
    (psbt_in.hd_keypaths = [] →
      buildInput master_fp psbt_in txin = .error .missingKey) ∧
    (∀ device is_testnet (psbt : PSBT),
      (∃ p ∈ psbt.inputs.zip psbt.tx.vin, p.1.hd_keypaths.length ≠ 1) →
      exceptIsOk (signTx device is_testnet master_fp psbt).2 = false) := by
  refine ⟨?_, ?_, ?_⟩
  · intro hlen
    unfold buildInput
    cases hk : psbt_in.hd_keypaths with
    | nil => rw [hk] at hlen; exact absurd hlen (by simp)
    | cons x xs =>
      cases xs with
      | nil => rw [hk] at hlen; exact absurd hlen (by simp)
      | cons y ys => rfl
  · intro hk
    unfold buildInput
    rw [hk]
  · intro device is_testnet psbt hbad
    have herr := buildInputs_error_of_bad master_fp _ hbad
    cases hbi : buildInputs master_fp (psbt.inputs.zip psbt.tx.vin) with
    | error e => simp [signTx, hbi, exceptIsOk]
    | ok ds => rw [hbi] at herr; simp [exceptIsOk] at herr

/-- Witness for C3 at concrete inputs: a two-key input raises the multisig
error and a zero-key input raises the missing-key error. -/
theorem trezor_C3_key_errors_witness :
    buildInput 7 inMulti txin0 = .error .multisig ∧
    buildInput 7 inEmpty txin0 = .error .missingKey :=
  ⟨(trezor_C3_key_errors 7 inMulti txin0).1 (by decide),
   (trezor_C3_key_errors 7 inEmpty txin0).2.1 rfl⟩

/-! ### C4: derivation path only for matching fingerprints -/

/-- C4: for a single-key input, the produced descriptor carries the stored
path with its leading fingerprint element dropped exactly when the stored
fingerprint equals the master fingerprint, and carries no path otherwise;
the key-resolution step itself raises no error (the only error `buildInput`
can still raise for such an input is the amount lookup's `IndexError`). -/
theorem trezor_C4_path (master_fp : Nat) (psbt_in : PSBTInput) (txin : CTxIn)
    (pk : Bytes) (v : List Nat) (hk : psbt_in.hd_keypaths = [(pk, v)]) :
    (∀ d, buildInput master_fp psbt_in txin = .ok d →
      d.address_n = if v.headD 0 = master_fp then some v.tail else none) ∧
    (∀ e, buildInput master_fp psbt_in txin = .error e → e = .indexOutOfRange) := by
  constructor
  · intro d hd
    unfold buildInput at hd
    rw [hk] at hd
    cases ha : amountOf psbt_in txin with
    | error e => rw [ha] at hd; exact absurd hd (by simp)
    | ok amt =>
      rw [ha] at hd
      simp only [Except.ok.injEq] at hd
      rw [← hd]
  · intro e he
    unfold buildInput at he
    rw [hk] at he
    cases ha : amountOf psbt_in txin with
    | error e' =>
      rw [ha] at he
      simp only [Except.error.injEq] at he
      unfold amountOf at ha
      cases hn : psbt_in.non_witness_utxo with
      | none =>
        simp only [hn] at ha
        cases hw : psbt_in.witness_utxo with
        | none => simp only [hw] at ha; exact absurd ha (by simp)
        | some wu => simp only [hw] at ha; exact absurd ha (by simp)
      | some nwu =>
        simp only [hn] at ha
        cases hv : nwu.vout.get? txin.prevout.n with
        | none =>
          simp only [hv, Except.error.injEq] at ha
          rw [← he, ha]
        | some vo => simp only [hv] at ha; exact absurd ha (by simp)
    | ok amt => rw [ha] at he; exact absurd he (by simp)

/-- Witness for C4: the concrete foreign-fingerprint input `inNoUtxo`
(stored fingerprint 9, device fingerprint 7) yields a descriptor and that
descriptor has no derivation path. -/
theorem trezor_C4_path_witness :
    buildInput 7 inNoUtxo txin0 = .ok dNoUtxo ∧ dNoUtxo.address_n = none :=
  ⟨by rfl, (trezor_C4_path 7 inNoUtxo txin0 pkA [9, 44, 0] rfl).1 dNoUtxo (by rfl)⟩

/-! ### C6: amount resolution -/

/-- C6: in a successfully built input descriptor, a legacy input's amount
is the referenced previous transaction's output value at the input's
prev-index, and a segwit input's amount is the witness UTXO's value. -/
theorem trezor_C6_amount (master_fp : Nat) (psbt_in : PSBTInput) (txin : CTxIn)
    (d : TxInputType) (h : buildInput master_fp psbt_in txin = .ok d) :
    (∀ nwu, psbt_in.non_witness_utxo = some nwu →
      ∀ vo, nwu.vout.get? txin.prevout.n = some vo → d.amount = some vo.nValue) ∧
    (psbt_in.non_witness_utxo = none → ∀ wu, psbt_in.witness_utxo = some wu →
      d.amount = some wu.nValue) := by
  unfold buildInput at h
  cases hk : psbt_in.hd_keypaths with
  | nil => rw [hk] at h; exact absurd h (by simp)
  | cons x xs =>
    cases xs with
    | cons y ys => rw [hk] at h; exact absurd h (by simp)
    | nil =>
      obtain ⟨pk, v⟩ := x
      rw [hk] at h
      cases ha : amountOf psbt_in txin with
      | error e => rw [ha] at h; exact absurd h (by simp)
      | ok amt =>
        rw [ha] at h
        simp only [Except.ok.injEq] at h
        unfold amountOf at ha
        constructor
        · intro nwu hn vo hv
          simp only [hn, hv, Except.ok.injEq] at ha
          rw [← h, ← ha]
        · intro hn wu hw
          simp only [hn, hw, Except.ok.injEq] at ha
          rw [← h, ← ha]

/-- Witness for C6 at concrete inputs: the legacy fixture's amount is the
referenced output's 12345 and the segwit fixture's amount is the witness
UTXO's 5000. -/
theorem trezor_C6_amount_witness :
    dLegacy.amount = some vout0.nValue ∧
    (buildInput 7 inOwn txin0 = .ok
      { prev_hash := (ser_uint256 0).reverse, prev_index := 0, sequence := 0
        script_type := some .SPENDWITNESS, address_n := some [44, 0]
        amount := some 5000 }) ∧
    (5000 : Nat) = wOut.nValue :=
  ⟨(trezor_C6_amount 7 inLegacy txin0 dLegacy (by rfl)).1 nwu0 rfl vout0 rfl,
   by rfl, by rfl⟩

/-! ### C2: script-type classification (corrected: no error branch) -/

/-- Counterexample to C2 as stated: a concrete single-key input with
neither a non-witness nor a witness UTXO (`inNoUtxo`) does NOT make the
builder fail — `buildInput` succeeds, so there is no "no spendable UTXO
info" error in the code. -/
theorem trezor_C2_counterexample :
    exceptIsOk (buildInput 7 inNoUtxo txin0) = true := by rfl

/-- C2 amended: a non-witness UTXO classifies the input as
`SPENDADDRESS`; otherwise a witness UTXO classifies it as
`SPENDP2SHWITNESS` when its script is P2SH and `SPENDWITNESS` when not;
but when neither UTXO is present the builder does not fail: it leaves the
descriptor's script-type (and amount) unset and succeeds for any
single-key input. -/
theorem trezor_C2_script_type (master_fp : Nat) (psbt_in : PSBTInput) (txin : CTxIn) :
    (∀ d, buildInput master_fp psbt_in txin = .ok d →
      d.script_type = scriptTypeOf psbt_in) ∧
    (∀ nwu, psbt_in.non_witness_utxo = some nwu →
      scriptTypeOf psbt_in = some .SPENDADDRESS) ∧
    (psbt_in.non_witness_utxo = none → ∀ wu, psbt_in.witness_utxo = some wu →
      scriptTypeOf psbt_in =
        some (if wu.is_p2sh then .SPENDP2SHWITNESS else .SPENDWITNESS)) ∧
    (psbt_in.non_witness_utxo = none → psbt_in.witness_utxo = none →
      scriptTypeOf psbt_in = none ∧
      ∀ pk v, psbt_in.hd_keypaths = [(pk, v)] →
        exceptIsOk (buildInput master_fp psbt_in txin) = true ∧
        ∀ d, buildInput master_fp psbt_in txin = .ok d → d.amount = none) := by
  refine ⟨?_, ?_, ?_, ?_⟩
  · intro d hd
    unfold buildInput at hd
    cases hk : psbt_in.hd_keypaths with
    | nil => rw [hk] at hd; exact absurd hd (by simp)
    | cons x xs =>
      cases xs with
      | cons y ys => rw [hk] at hd; exact absurd hd (by simp)
      | nil =>
        obtain ⟨pk, v⟩ := x
        rw [hk] at hd
        cases ha : amountOf psbt_in txin with
        | error e => rw [ha] at hd; exact absurd hd (by simp)
        | ok amt =>
          rw [ha] at hd
          simp only [Except.ok.injEq] at hd
          rw [← hd]
  · intro nwu hn
    unfold scriptTypeOf
    simp only [hn]
  · intro hn wu hw
    unfold scriptTypeOf
    simp only [hn, hw]
    cases hps : wu.is_p2sh <;> simp [hps]
  · intro hn hw
    have hst : scriptTypeOf psbt_in = none := by
      unfold scriptTypeOf
      simp only [hn, hw]
    refine ⟨hst, ?_⟩
    intro pk v hk
    have ha : amountOf psbt_in txin = .ok none := by
      unfold amountOf
      simp only [hn, hw]
    constructor
    · unfold buildInput
      rw [hk, ha]
      rfl
    · intro d hd
      unfold buildInput at hd
      rw [hk, ha] at hd
      simp only [Except.ok.injEq] at hd
      rw [← hd]

/-- Witness for C2 amended at the concrete no-UTXO input: the builder
succeeds and the resulting descriptor has script-type and amount unset. -/
theorem trezor_C2_script_type_witness :
    exceptIsOk (buildInput 7 inNoUtxo txin0) = true ∧
    dNoUtxo.script_type = none ∧ dNoUtxo.amount = none :=
  ⟨((trezor_C2_script_type 7 inNoUtxo txin0).2.2.2 rfl rfl).2 pkA [9, 44, 0] rfl |>.1,
   rfl,
   ((trezor_C2_script_type 7 inNoUtxo txin0).2.2.2 rfl rfl).2 pkA [9, 44, 0] rfl
     |>.2 dNoUtxo (by rfl)⟩

/-! ### C7: output address resolution -/

/-- A mainnet P2PKH locking script over a constant 20-byte hash. -/
def p2pkhScript : Bytes := 0x76 :: 0xa9 :: 0x14 :: (List.replicate 20 8 ++ [0x88, 0xac])

/-- A sample P2PKH transaction output of 50000 satoshis. -/
def outP2pkh : CTxOut := { nValue := 50000, scriptPubKey := p2pkhScript }

/-- C7: output addresses are resolved by script pattern in precedence
order P2PKH (script bytes 3..23, P2PKH version byte), then P2SH (bytes
2..22, P2SH version byte), then witness (bech32 of version and program),
and any other script fails with the not-an-address error; every built
output descriptor is tagged pay-to-address. -/
theorem trezor_C7_outputs (pkh_ver sh_ver : Nat) (hrp : String) (out : CTxOut) :
    (out.is_p2pkh = true →
      buildOutput pkh_ver sh_ver hrp out =
        .ok { amount := out.nValue, script_type := .PAYTOADDRESS
              address := .base58check ((out.scriptPubKey.drop 3).take 20) pkh_ver }) ∧
    (out.is_p2pkh = false → out.is_p2sh = true →
      buildOutput pkh_ver sh_ver hrp out =
        .ok { amount := out.nValue, script_type := .PAYTOADDRESS
              address := .base58check ((out.scriptPubKey.drop 2).take 20) sh_ver }) ∧
    (out.is_p2pkh = false → out.is_p2sh = false → ∀ ver prog,
      out.is_witness = (true, ver, prog) →
      buildOutput pkh_ver sh_ver hrp out =
        .ok { amount := out.nValue, script_type := .PAYTOADDRESS
              address := .bech32 hrp ver prog }) ∧
    (out.is_p2pkh = false → out.is_p2sh = false → ∀ ver prog,
      out.is_witness = (false, ver, prog) →
      buildOutput pkh_ver sh_ver hrp out = .error .notAddress) ∧
    (∀ d, buildOutput pkh_ver sh_ver hrp out = .ok d →
      d.script_type = .PAYTOADDRESS) := by
  refine ⟨?_, ?_, ?_, ?_, ?_⟩
  · intro h1
    unfold buildOutput
    simp only [h1, if_true]
  · intro h1 h2
    unfold buildOutput
    simp only [h1, h2, Bool.false_eq_true, if_false, if_true]
  · intro h1 h2 ver prog hw
    unfold buildOutput
    simp only [h1, h2, Bool.false_eq_true, if_false, hw]
  · intro h1 h2 ver prog hw
    unfold buildOutput
    simp only [h1, h2, Bool.false_eq_true, if_false, hw]
  · intro d hd
    unfold buildOutput at hd
    split at hd
    · cases hd
      rfl
    · split at hd
      · cases hd
        rfl
      · split at hd
        · cases hd
          rfl
        · exact absurd hd (by simp)

/-- Witness for C7 at a concrete mainnet P2PKH output: the builder yields
the pay-to-address descriptor with the base58check payload taken from
script bytes 3..23 and version byte 0. -/
theorem trezor_C7_outputs_witness :
    buildOutput 0 5 "bc" outP2pkh =
      .ok { amount := 50000, script_type := .PAYTOADDRESS
            address := .base58check ((outP2pkh.scriptPubKey.drop 3).take 20) 0 } :=
  (trezor_C7_outputs 0 5 "bc" outP2pkh).1 (by decide)

/-! ### C5 and C9: the previous-transaction resolver -/

/-- A scan over inputs none of which embeds a matching non-witness UTXO
leaves the accumulator unchanged. -/
theorem foldl_getTxStep_no_match (target : Nat) :
    ∀ (l : List PSBTInput) (init : Option CTransaction),
      (∀ i ∈ l, ∀ nwu, i.non_witness_utxo = some nwu → nwu.sha256 ≠ target) →
      l.foldl (getTxStep target) init = init := by
  intro l
  induction l with
  | nil => intro init _; rfl
  | cons hd tl ih =>
    intro init h
    rw [List.foldl_cons]
    have hstep : getTxStep target init hd = init := by
      unfold getTxStep
      cases hn : hd.non_witness_utxo with
      | none => rfl
      | some nwu =>
        have := h hd (List.mem_cons_self hd tl) nwu hn
        simp only [this, if_false]
    rw [hstep]
    exact ih init (fun i hi => h i (List.mem_cons_of_mem hd hi))

/-- A scan that ends on `some t` either found `t` as a matching embedded
transaction of one of the scanned inputs, or started with it. -/
theorem foldl_getTxStep_some (target : Nat) :
    ∀ (l : List PSBTInput) (init : Option CTransaction) (t : CTransaction),
      l.foldl (getTxStep target) init = some t →
      (∃ i ∈ l, i.non_witness_utxo = some t ∧ t.sha256 = target) ∨ init = some t := by
  intro l
  induction l with
  | nil => intro init t h; exact Or.inr h
  | cons hd tl ih =>
    intro init t h
    rw [List.foldl_cons] at h
    rcases ih (getTxStep target init hd) t h with hfound | hinit
    · obtain ⟨i, hi, hrest⟩ := hfound
      exact Or.inl ⟨i, List.mem_cons_of_mem hd hi, hrest⟩
    · unfold getTxStep at hinit
      cases hn : hd.non_witness_utxo with
      | none => rw [hn] at hinit; exact Or.inr hinit
      | some nwu =>
        simp only [hn] at hinit
        by_cases hm : nwu.sha256 = target
        · rw [if_pos hm] at hinit
          cases hinit
          exact Or.inl ⟨hd, List.mem_cons_self hd tl, hn, hm⟩
        · rw [if_neg hm] at hinit
          exact Or.inr hinit

/-- C5: when no input's embedded non-witness UTXO has a stored hash equal
to the requested hash (compared after endian reversal), `get_tx` fails
with the not-found error naming the hash; and any success returns the
expanded descriptor (version, locktime, input and output lists) of a
matching embedded transaction. -/
theorem trezor_C5_prevtx (psbt : PSBT) (txhashBytes : Bytes) :
    ((∀ i ∈ psbt.inputs, ∀ nwu, i.non_witness_utxo = some nwu →
        nwu.sha256 ≠ uint256_from_str txhashBytes.reverse) →
      getTx psbt txhashBytes = .error (.prevTxNotFound txhashBytes)) ∧
    (∀ t, getTx psbt txhashBytes = .ok t →
      ∃ nwu, (∃ i ∈ psbt.inputs, i.non_witness_utxo = some nwu) ∧
        nwu.sha256 = uint256_from_str txhashBytes.reverse ∧
        t = toTransactionType nwu) := by
  constructor
  · intro h
    unfold getTx getTxLoop
    rw [foldl_getTxStep_no_match _ psbt.inputs none h]
  · intro t ht
    unfold getTx getTxLoop at ht
    cases hl : psbt.inputs.foldl (getTxStep (uint256_from_str txhashBytes.reverse)) none with
    | none => rw [hl] at ht; exact absurd ht (by simp)
    | some nwu =>
      rw [hl] at ht
      simp only [Except.ok.injEq] at ht
      rcases foldl_getTxStep_some _ psbt.inputs none nwu hl with hfound | hinit
      · obtain ⟨i, hi, hn, hm⟩ := hfound
        exact ⟨nwu, ⟨i, hi, hn⟩, hm, ht.symm⟩
      · exact absurd hinit (by simp)

/-- The all-zero unsigned transaction hash bytes are irrelevant here; a
32-byte requested hash whose reversal reads as the value 42. -/
def hashBytes0 : Bytes := List.replicate 31 0 ++ [42]

/-- A PSBT whose single input carries no non-witness UTXO. -/
def psbtNoMatch : PSBT := { tx := mtx0, inputs := [inOwn] }

/-- Witness for C5: the lookup of `hashBytes0` in `psbtNoMatch` fails with
the not-found error naming the hash. -/
theorem trezor_C5_prevtx_witness :
    getTx psbtNoMatch hashBytes0 = .error (.prevTxNotFound hashBytes0) :=
  (trezor_C5_prevtx psbtNoMatch hashBytes0).1 (by
    intro i hi nwu hn
    simp only [psbtNoMatch, List.mem_singleton] at hi
    subst hi
    exact absurd hn (by simp [inOwn]))

/-- A second previous transaction with the same stored hash 42 as `nwuA`
but different outputs. -/
def nwuB : CTransaction :=
  { nVersion := 2, nLockTime := 7, vin := [txin0]
    vout := [{ nValue := 999, scriptPubKey := [] }], sha256 := 42 }

/-- A first previous transaction with stored hash 42. -/
def nwuA : CTransaction :=
  { nVersion := 1, nLockTime := 0, vin := [txin0], vout := [vout0], sha256 := 42 }

/-- PSBT input embedding `nwuA`. -/
def inNwuA : PSBTInput :=
  { non_witness_utxo := some nwuA, witness_utxo := none
    hd_keypaths := [(pkA, [7, 44, 0])], partial_sigs := [] }

/-- PSBT input embedding `nwuB`. -/
def inNwuB : PSBTInput :=
  { non_witness_utxo := some nwuB, witness_utxo := none
    hd_keypaths := [(pkB, [7, 44, 1])], partial_sigs := [] }

/-- A PSBT in which two inputs embed a transaction matching hash 42. -/
def psbtDouble : PSBT := { tx := mtx0, inputs := [inNwuA, inNwuB] }

/-- C9: when an input embedding a matching non-witness UTXO is followed
only by non-matching inputs, `get_tx` returns the descriptor of that
(last-matching) embedded transaction, whatever matches occur earlier in
the scan — later matches overwrite earlier ones. -/
theorem trezor_C9_last_match (mtx : CMutableTransaction)
    (pre post : List PSBTInput) (a : PSBTInput) (nwu : CTransaction)
    (txhashBytes : Bytes) (ha : a.non_witness_utxo = some nwu)
    (hm : nwu.sha256 = uint256_from_str txhashBytes.reverse)
    (hpost : ∀ i ∈ post, ∀ u, i.non_witness_utxo = some u →
      u.sha256 ≠ uint256_from_str txhashBytes.reverse) :
    getTx { tx := mtx, inputs := pre ++ a :: post } txhashBytes =
      .ok (toTransactionType nwu) := by
  unfold getTx getTxLoop
  have hsplit :
      (pre ++ a :: post).foldl
        (getTxStep (uint256_from_str txhashBytes.reverse)) none =
      post.foldl (getTxStep (uint256_from_str txhashBytes.reverse))
        (getTxStep (uint256_from_str txhashBytes.reverse)
          (pre.foldl (getTxStep (uint256_from_str txhashBytes.reverse)) none) a) := by
    rw [List.foldl_append, List.foldl_cons]
  have hstep : getTxStep (uint256_from_str txhashBytes.reverse)
      (pre.foldl (getTxStep (uint256_from_str txhashBytes.reverse)) none) a =
      some nwu := by
    unfold getTxStep
    simp only [ha, hm, if_true]
  simp only [hsplit, hstep,
    foldl_getTxStep_no_match (uint256_from_str txhashBytes.reverse) post (some nwu) hpost]

/-- Witness for C9: in `psbtDouble` both inputs match hash 42 and the
lookup returns the descriptor of the second (`nwuB`), not the first. -/
theorem trezor_C9_last_match_witness :
    getTx psbtDouble hashBytes0 = .ok (toTransactionType nwuB) :=
  trezor_C9_last_match mtx0 [inNwuA] [] inNwuB nwuB hashBytes0 rfl (by decide)
    (by intro i hi; exact absurd hi (List.not_mem_nil i))

/-! ### C1 and C10: the signature-merge loop -/

/-- With fewer signatures than inputs (each input holding at least one
key), the merge loop fails: once the signature list is exhausted the next
iteration's `signatures.remove(sig)` raises. -/
theorem mergeAux_fewer (master_fp : Nat) :
    ∀ (inputs : List PSBTInput) (sigs : List Sig) (lastSig : Option Sig),
      (∀ i ∈ inputs, i.hd_keypaths ≠ []) → sigs.length < inputs.length →
      exceptIsOk (mergeSigsAux master_fp inputs sigs lastSig).2 = false := by
  intro inputs
  induction inputs with
  | nil => intro sigs last _ hlen; exact absurd hlen (by simp)
  | cons i rest ih =>
    intro sigs last hkeys hlen
    have hk := hkeys i (List.mem_cons_self i rest)
    obtain ⟨k, kt, hkp⟩ := List.exists_cons_of_ne_nil hk
    obtain ⟨pk, v⟩ := k
    cases sigs with
    | nil =>
      unfold mergeSigsAux
      cases hs : mergeStep master_fp i [] last with
      | error e => rfl
      | ok t =>
        exfalso
        unfold mergeStep at hs
        rw [hkp] at hs
        cases last with
        | none => exact absurd hs (by simp)
        | some s =>
          simp only [List.not_mem_nil, if_false] at hs
          exact absurd hs (by simp)
    | cons s ss =>
      unfold mergeSigsAux
      have hs : mergeStep master_fp i (s :: ss) last =
          .ok (if v.headD 0 = master_fp then
                 { i with partial_sigs := dictSet i.partial_sigs pk (s ++ [0x01]) }
               else i, ss, some s) := by
        unfold mergeStep
        rw [hkp]
      rw [hs]
      exact ih ss (some s) (fun j hj => hkeys j (List.mem_cons_of_mem i hj))
        (Nat.lt_of_succ_lt_succ hlen)

/-- With at least as many signatures as inputs (each input holding at
least one key), the merge loop completes without error, consuming one
signature per input and discarding any leftovers. -/
theorem mergeAux_enough (master_fp : Nat) :
    ∀ (inputs : List PSBTInput) (sigs : List Sig) (lastSig : Option Sig),
      (∀ i ∈ inputs, i.hd_keypaths ≠ []) → inputs.length ≤ sigs.length →
      (mergeSigsAux master_fp inputs sigs lastSig).2 = .ok () := by
  intro inputs
  induction inputs with
  | nil => intro sigs last _ _; rfl
  | cons i rest ih =>
    intro sigs last hkeys hlen
    have hk := hkeys i (List.mem_cons_self i rest)
    obtain ⟨k, kt, hkp⟩ := List.exists_cons_of_ne_nil hk
    obtain ⟨pk, v⟩ := k
    cases sigs with
    | nil => exact absurd hlen (by simp)
    | cons s ss =>
      unfold mergeSigsAux
      have hs : mergeStep master_fp i (s :: ss) last =
          .ok (if v.headD 0 = master_fp then
                 { i with partial_sigs := dictSet i.partial_sigs pk (s ++ [0x01]) }
               else i, ss, some s) := by
        unfold mergeStep
        rw [hkp]
      rw [hs]
      exact ih ss (some s) (fun j hj => hkeys j (List.mem_cons_of_mem i hj))
        (Nat.le_of_succ_le_succ hlen)

/-- Counterexample to C1 as stated: the claim calls any count mismatch —
fewer returned than expected, or more — a fatal error, but a device
response of three signatures for this two-input request merges without
any error (the extra signature is silently discarded). -/
theorem trezor_C1_counterexample :
    (mergeSigs 7 [inOwn, inOwn] [[1], [2], [3]]).2 = .ok () := by rfl

/-- C1 amended: for inputs that each hold at least one HD-keypath entry,
a device response with fewer signatures than inputs makes the merge fail
with a fatal (uncaught) error — in particular 2 signatures for a 3-input
request is an error, not a silent truncation — but a response with more
signatures than inputs is not an error: the merge completes and the extra
signatures are silently discarded. -/
theorem trezor_C1_amended (master_fp : Nat) (inputs : List PSBTInput)
    (sigs : List Sig) (hkeys : ∀ i ∈ inputs, i.hd_keypaths ≠ []) :
    (sigs.length < inputs.length →
      exceptIsOk (mergeSigs master_fp inputs sigs).2 = false) ∧
    (inputs.length ≤ sigs.length →
      (mergeSigs master_fp inputs sigs).2 = .ok ()) :=
  ⟨fun hlen => mergeAux_fewer master_fp inputs sigs none hkeys hlen,
   fun hlen => mergeAux_enough master_fp inputs sigs none hkeys hlen⟩

/-- Witness for C1 amended: two signatures for a three-input request end
in an error. -/
theorem trezor_C1_amended_witness :
    exceptIsOk (mergeSigs 7 [inOwn, inOwn, inOwn] [[1], [2]]).2 = false :=
  (trezor_C1_amended 7 [inOwn, inOwn, inOwn] [[1], [2]] (by decide)).1 (by decide)

/-- C10: an input whose (first) HD-keypath entry has a fingerprint
different from the master fingerprint still consumes the signature at the
front of the list — the input itself is left unchanged (no partial
signature is written), and the rest of the loop continues with the tail
of the signature list, shifting which signatures later inputs receive. -/
theorem trezor_C10_foreign_consumes (master_fp : Nat) (a : PSBTInput)
    (rest : List PSBTInput) (s : Sig) (ss : List Sig) (lastSig : Option Sig)
    (pk : Bytes) (v : List Nat) (hk : a.hd_keypaths.head? = some (pk, v))
    (hfp : v.headD 0 ≠ master_fp) :
    mergeSigsAux master_fp (a :: rest) (s :: ss) lastSig =
      (a :: (mergeSigsAux master_fp rest ss (some s)).1,
        (mergeSigsAux master_fp rest ss (some s)).2) := by
  obtain ⟨k, kt, hkp⟩ : ∃ k kt, a.hd_keypaths = k :: kt := by
    cases hl : a.hd_keypaths with
    | nil => rw [hl] at hk; exact absurd hk (by simp)
    | cons k kt => exact ⟨k, kt, rfl⟩
  rw [hkp] at hk
  simp only [List.head?_cons, Option.some.injEq] at hk
  subst hk
  have hs : mergeStep master_fp a (s :: ss) lastSig = .ok (a, ss, some s) := by
    unfold mergeStep
    rw [hkp]
    simp only [hfp, if_false]
  have hstep : mergeSigsAux master_fp (a :: rest) (s :: ss) lastSig =
      match mergeStep master_fp a (s :: ss) lastSig with
      | .error e => (a :: rest, Except.error e)
      | .ok (psbt_in', sigs', last') =>
        (psbt_in' :: (mergeSigsAux master_fp rest sigs' last').1,
          (mergeSigsAux master_fp rest sigs' last').2) := rfl
  rw [hstep, hs]

/-- Witness for C10: the foreign-fingerprint input `inOther` (fingerprint
9, device fingerprint 7) consumes the front signature and is itself left
unchanged. -/
theorem trezor_C10_foreign_consumes_witness :
    mergeSigsAux 7 [inOther, inOwn] [[1], [2]] none =
      (inOther :: (mergeSigsAux 7 [inOwn] [[2]] (some [1])).1,
        (mergeSigsAux 7 [inOwn] [[2]] (some [1])).2) :=
  trezor_C10_foreign_consumes 7 inOther [inOwn] [1] [[2]] none pkA [9, 44, 0]
    rfl (by decide)

/-! ### C8: builder failures precede the device RPC and any mutation -/

/-- A device stub returning no signatures. -/
def deviceNone : String → List TxInputType → List TxOutputType → Nat → Nat → List Sig :=
  fun _ _ _ _ _ => []

/-- A device stub returning one signature. -/
def deviceOne : String → List TxInputType → List TxOutputType → Nat → Nat → List Sig :=
  fun _ _ _ _ _ => [[1]]

/-- A PSBT whose single (zipped) input is the two-key `inMulti`, so the
request builder fails. -/
def psbtMulti : PSBT := { tx := mtx0, inputs := [inMulti] }

/-- C8: when the request builder fails — on the input loop or on the
output loop — `sign_tx` returns with an error, the PSBT state is exactly
the input PSBT (no partial-signature map was touched), and the outcome is
the same for every device, i.e. the device signing RPC was never
consulted. -/
theorem trezor_C8_builder_failure (is_testnet : Bool) (master_fp : Nat) (tx : PSBT)
    (h : (∃ e, buildInputs master_fp (tx.inputs.zip tx.tx.vin) = .error e) ∨
         (∃ e, buildOutputs (p2pkh_version is_testnet) (p2sh_version is_testnet)
            (bech32_hrp is_testnet) tx.tx.vout = .error e)) :
    ∀ device device',
      (signTx device is_testnet master_fp tx).1 = tx ∧
      exceptIsOk (signTx device is_testnet master_fp tx).2 = false ∧
      signTx device is_testnet master_fp tx = signTx device' is_testnet master_fp tx := by
  intro device device'
  cases hbi : buildInputs master_fp (tx.inputs.zip tx.tx.vin) with
  | error e =>
    refine ⟨?_, ?_, ?_⟩ <;> simp [signTx, hbi, exceptIsOk]
  | ok ins =>
    rcases h with ⟨e, he⟩ | ⟨e, he⟩
    · rw [hbi] at he; exact absurd he (by simp)
    · refine ⟨?_, ?_, ?_⟩ <;> simp [signTx, hbi, he, exceptIsOk]

/-- Witness for C8: with the failing `psbtMulti` request, two different
device stubs produce the identical errored outcome and the PSBT is
returned unchanged. -/
theorem trezor_C8_builder_failure_witness :
    (signTx deviceNone false 7 psbtMulti).1 = psbtMulti ∧
    exceptIsOk (signTx deviceNone false 7 psbtMulti).2 = false ∧
    signTx deviceNone false 7 psbtMulti = signTx deviceOne false 7 psbtMulti :=
  trezor_C8_builder_failure false 7 psbtMulti
    (Or.inl ⟨.multisig, by rfl⟩) deviceNone deviceOne
